import Mathlib

/-!
Verification development for the RTSduncan browser chess UI.

The repository delegates chess rules to chess.js and move search to either a
bundled UCI engine (Stockfish, in a worker) or a remote chat-completion API
(Grok).  What is embedded here is the repository's own glue code:

* `js/ai.js` (`GrokAI`): remote-API move selection with a retry loop, a
  legality-whitelist check and a random fallback;
* `js/ai-manager.js` (`AIManager`): provider dispatch (human / stockfish /
  grok) with validation and random fallback;
* `js/stockfish-engine.js` (`StockfishEngine`): the UCI command sequence, the
  `bestmove` output handler and the request timeout;
* `js/game.js` / `js/game-controller.js` (`ChessGame`): move-history log,
  replay/scrubbing and the promotion rule for human moves;
* the two copies of `ChessBoard.createBoard` (in `js/board.js` and embedded
  in `js/stockfish-engine.js`).

External effects are made explicit: the network/provider answer is an oracle
parameter (one answer per attempt number), `Math.random()` is a rational
parameter `r` with `0 ≤ r < 1`, chess.js move application is a function
parameter `apply : String → String → Option String` (`none` = illegal move),
and promise resolution is an explicit state field.
-/

namespace RTSduncan

/-! ### Random fallback (`getRandomMove` in js/ai.js lines 181-187 and
js/ai-manager.js lines 751-757; both copies are textually identical).

JS: `if (!legalMoves || legalMoves.length === 0) throw new Error('No legal
moves available'); const randomIndex = Math.floor(Math.random() * legalMoves.length);
return legalMoves[randomIndex];`  A missing (`null`/`undefined`) whitelist is
the `none` case; `Math.random()` is the parameter `r`. -/

/-- `Math.floor(r * n)` as a natural index (nonnegative for `0 ≤ r`). -/
def randomIndex (r : ℚ) (n : ℕ) : ℕ := (⌊r * n⌋).toNat

def getRandomMove (legalMoves : Option (List String)) (r : ℚ) :
    Except String String :=
  match legalMoves with
  | none => .error "No legal moves available"
  | some ms =>
    if ms.length = 0 then .error "No legal moves available"
    else .ok (ms.getD (randomIndex r ms.length) "")

/-! ### GrokAI (js/ai.js) -/

/-- The `CONFIG` fields of js/ai.js that `getBestMove` reads. -/
structure GrokConfig where
  AI_ENABLED : Bool
  GROK_API_KEY : String
  MAX_RETRIES : ℕ
deriving Repr, DecidableEq

/-- js/ai.js lines 10-18: the literal default configuration. -/
def GrokAI.defaultConfig : GrokConfig :=
  { AI_ENABLED := true, GROK_API_KEY := "your-api-key-here", MAX_RETRIES := 3 }

/-- Outcome of one `callGrokAPI` attempt: an exception (network error, bad
status, no move in the response) or the parsed answer string. -/
inductive ApiResult where
  | err : ApiResult
  | ok (move : String) : ApiResult
deriving Repr, DecidableEq

/-- js/ai.js lines 172-174: `legalMoves.includes(move)`. -/
def isValidMove (move : String) (legalMoves : List String) : Bool :=
  legalMoves.contains move

/-- The retry loop of `GrokAI.getBestMove` (js/ai.js lines 48-68).
`attempt` is the JS loop counter, `fuel` the remaining iterations
(`MAX_RETRIES - attempt + 1`).  Returns `some move` when an attempt yields a
truthy answer passing `isValidMove`, `none` when all attempts fail. -/
def grokRetryLoop (oracle : ℕ → ApiResult) (legalMoves : List String) :
    ℕ → ℕ → Option String
  | _, 0 => none
  | attempt, fuel + 1 =>
    match oracle attempt with
    | .ok move =>
      if move != "" && isValidMove move legalMoves then some move
      else grokRetryLoop oracle legalMoves (attempt + 1) fuel
    | .err => grokRetryLoop oracle legalMoves (attempt + 1) fuel

/-- One attempt of the retry loop fails: the API call threw, or its answer
is falsy or off the whitelist. -/
def attemptFails (oracle : ℕ → ApiResult) (ms : List String) (x : ℕ) : Prop :=
  match oracle x with
  | .err => True
  | .ok m => (m != "" && isValidMove m ms) = false

/-- `GrokAI.getBestMove` (js/ai.js lines 34-74).  The provider answer of
attempt `a` is `oracle a`; `r` is the `Math.random()` draw of the fallback. -/
def GrokAI.getBestMove (cfg : GrokConfig) (oracle : ℕ → ApiResult)
    (fen : String) (legalMoves : List String) (r : ℚ) :
    Except String String :=
  if !cfg.AI_ENABLED then getRandomMove (some legalMoves) r
  else if cfg.GROK_API_KEY = "" ∨ cfg.GROK_API_KEY = "your-api-key-here" then
    getRandomMove (some legalMoves) r
  else
    match grokRetryLoop oracle legalMoves 1 cfg.MAX_RETRIES with
    | some move => .ok move
    | none => getRandomMove (some legalMoves) r

/-! ### AIManager (js/ai-manager.js) -/

namespace AIManager

/-- js/ai-manager.js lines 592-596. -/
def AIProvider.STOCKFISH : String := "stockfish"
def AIProvider.GROK : String := "grok"
def AIProvider.HUMAN : String := "human"

/-- Lines 732-743: the validation of the provider answer and the `catch`
fallback.  An `.ok` answer is returned only when truthy and on the
whitelist; otherwise — and for any thrown error — `getRandomMove` is used. -/
def validateOrFallback (tryBlock : Except String String)
    (legalMoves : List String) (r : ℚ) : Except String String :=
  match tryBlock with
  | .ok move =>
    if move != "" && isValidMove move legalMoves then .ok move
    else getRandomMove (some legalMoves) r
  | .error _ => getRandomMove (some legalMoves) r

/-- `AIManager.getBestMove` (js/ai-manager.js lines 714-744).
`stockfishAnswer` abstracts `getStockfishMove` (which rethrows engine
errors); the grok path runs the embedded `GrokAI.getBestMove` (what
`getGrokMove` calls, rethrowing).  The `human` throw happens before the
`try` block and therefore propagates; the `Unknown AI provider` throw is
inside the `try` and is caught, as is any provider error, after which the
`catch` returns `getRandomMove(legalMoves)` (whose own throw, for an empty
whitelist, propagates either way). -/
def getBestMove (provider difficulty : String)
    (stockfishAnswer : Except String String)
    (grokCfg : GrokConfig) (grokOracle : ℕ → ApiResult) (grokRand : ℚ)
    (fen : String) (legalMoves : List String) (thinkingTime : Option ℕ)
    (r : ℚ) : Except String String :=
  if provider = AIProvider.HUMAN then .error "Cannot get move for human player"
  else
    validateOrFallback
      (if provider = AIProvider.STOCKFISH then stockfishAnswer
       else if provider = AIProvider.GROK then
         GrokAI.getBestMove grokCfg grokOracle fen legalMoves grokRand
       else .error ("Unknown AI provider: " ++ provider))
      legalMoves r

end AIManager

/-! ### StockfishEngine (js/stockfish-engine.js) -/

namespace StockfishEngine

/-- js/stockfish-engine.js line 16: `TIMEOUT: 30000`. -/
def CONFIG.TIMEOUT : ℕ := 30000

/-- js/stockfish-engine.js lines 18-23: `CONFIG.SKILL_LEVELS[difficulty]`
(`none` = absent key, i.e. JS `undefined`). -/
def CONFIG.SKILL_LEVELS (difficulty : String) : Option ℕ :=
  if difficulty = "beginner" then some 3
  else if difficulty = "intermediate" then some 10
  else if difficulty = "advanced" then some 15
  else if difficulty = "master" then some 20
  else none

/-- Line 245: `CONFIG.SKILL_LEVELS[difficulty] || CONFIG.SKILL_LEVELS.intermediate`. -/
def skillLevelFor (difficulty : String) : ℕ :=
  (CONFIG.SKILL_LEVELS difficulty).getD 10

/-- `getDepthForDifficulty` (lines 281-289): `depths[difficulty] || depths.intermediate`. -/
def getDepthForDifficulty (difficulty : String) : ℕ :=
  if difficulty = "beginner" then 3
  else if difficulty = "intermediate" then 8
  else if difficulty = "advanced" then 12
  else if difficulty = "master" then 18
  else 8

/-- The `go` command chosen at lines 260-264: `if (thinkingTime)` is JS
truthiness, so `null`/absent and `0` both fall to `go depth`. -/
def goCommand (difficulty : String) (thinkingTime : Option ℕ) : String :=
  match thinkingTime with
  | some t =>
    if t != 0 then "go movetime " ++ toString t
    else "go depth " ++ toString (getDepthForDifficulty difficulty)
  | none => "go depth " ++ toString (getDepthForDifficulty difficulty)

/-- The UCI commands emitted by one `getBestMove` request, in the order the
code passes them to `sendCommand` (lines 244-264): skill level, position,
then the `go` command. -/
def getBestMoveCommands (fen difficulty : String) (thinkingTime : Option ℕ) :
    List String :=
  ["setoption name Skill Level value " ++ toString (skillLevelFor difficulty),
   "position fen " ++ fen,
   goCommand difficulty thinkingTime]

/-- State of the engine wrapper relevant to one pending `getBestMove`
request: `engineReady` and `pendingCommands` are the module variables of the
same names, `callbackPending` is `currentCallback !== null`, `result` is the
settlement of the request's promise (`none` = still pending), and `sent`
records commands flushed from the queue. -/
structure EngineSt where
  engineReady : Bool
  callbackPending : Bool
  result : Option (Except String String)
  pendingCommands : List String
  sent : List String
deriving Repr

/-- Character-level substring test. -/
def charsContain (pat : List Char) : List Char → Bool
  | [] => pat.isEmpty
  | c :: cs => pat.isPrefixOf (c :: cs) || charsContain pat cs

/-- JS `line.includes(pat)`. -/
def strContains (line pat : String) : Bool :=
  charsContain pat.toList line.toList

/-- JS `line.startsWith(pre)`. -/
def strStartsWith (line pre : String) : Bool :=
  pre.toList.isPrefixOf line.toList

/-- Splitting a character list at every occurrence of `sep`, keeping empty
pieces — the semantics of JS `line.split(sep)` for a one-character
separator. -/
def splitChars (sep : Char) : List Char → List (List Char)
  | [] => [[]]
  | c :: cs =>
    if c = sep then [] :: splitChars sep cs
    else
      match splitChars sep cs with
      | [] => [[c]]
      | w :: ws => (c :: w) :: ws

/-- JS `line.split(sep)` for a one-character separator. -/
def jsSplit (sep : Char) (line : String) : List String :=
  (splitChars sep line.toList).map String.mk

/-- First block of `handleEngineOutput` (lines 149-152):
`line.includes('uciok')` sets readiness. -/
def applyUciok (line : String) (s : EngineSt) : EngineSt :=
  if strContains line "uciok" then { s with engineReady := true } else s

/-- Second block (lines 154-162): a line starting with `bestmove` resolves
the pending callback with `line.split(' ')[1]` and clears the callback;
with no callback pending nothing happens. -/
def applyBestmove (line : String) (s : EngineSt) : EngineSt :=
  if strStartsWith line "bestmove" then
    if s.callbackPending then
      { s with callbackPending := false,
               result := some (.ok ((jsSplit ' ' line).getD 1 "")) }
    else s
  else s

/-- Third block (lines 164-168): one queued command is flushed when the
engine is ready. -/
def flushPending (s : EngineSt) : EngineSt :=
  if s.engineReady && s.pendingCommands.length != 0 then
    match s.pendingCommands with
    | [] => s
    | c :: rest => { s with pendingCommands := rest, sent := s.sent ++ [c] }
  else s

/-- `handleEngineOutput` (lines 146-169): the three blocks in sequence. -/
def handleEngineOutput (line : String) (s : EngineSt) : EngineSt :=
  flushPending (applyBestmove line (applyUciok line s))

/-- The timeout closure of `getBestMove` (lines 267-272) firing: if the
callback is still pending it is cleared first and the promise is rejected
with `Stockfish timeout`; otherwise nothing happens. -/
def timeoutFires (s : EngineSt) : EngineSt :=
  if s.callbackPending then
    { s with callbackPending := false,
             result := some (.error "Stockfish timeout") }
  else s

end StockfishEngine

/-! ### The two `ChessBoard.createBoard` grids (claim about
js/board.js lines 63-88 vs the copy embedded in js/stockfish-engine.js).
Each cell `(row, col)` of the 8x8 grid gets a square name and a CSS class. -/

namespace BoardJs

/-- js/board.js line 69. -/
def displayRow (isFlipped : Bool) (row : ℕ) : ℕ := if isFlipped then row else 7 - row

/-- js/board.js line 70. -/
def displayCol (isFlipped : Bool) (col : ℕ) : ℕ := if isFlipped then 7 - col else col

/-- js/board.js lines 72-74: `String.fromCharCode(97 + displayCol) + (displayRow + 1)`. -/
def squareName (isFlipped : Bool) (row col : ℕ) : String :=
  String.mk [Char.ofNat (97 + displayCol isFlipped col)]
    ++ toString (displayRow isFlipped row + 1)

/-- js/board.js line 76: `'square ' + ((displayRow + displayCol) % 2 === 0 ? 'dark' : 'light')`. -/
def className (isFlipped : Bool) (row col : ℕ) : String :=
  "square " ++
    (if (displayRow isFlipped row + displayCol isFlipped col) % 2 == 0
     then "dark" else "light")

end BoardJs

namespace EngineBoard

/-- Embedded copy in js/stockfish-engine.js: `rank = isFlipped ? row + 1 : 8 - row`,
`file = String.fromCharCode(97 + (isFlipped ? 7 - col : col))`, name = file + rank. -/
def squareName (isFlipped : Bool) (row col : ℕ) : String :=
  String.mk [Char.ofNat (97 + (if isFlipped then 7 - col else col))]
    ++ toString (if isFlipped then row + 1 else 8 - row)

/-- Embedded copy: `isLightSquare = (row + col) % 2 === 1`,
`'square ' + (isLightSquare ? 'light' : 'dark')`. -/
def className (isFlipped : Bool) (row col : ℕ) : String :=
  "square " ++ (if (row + col) % 2 == 1 then "light" else "dark")

end EngineBoard

/-- All 64 square names a grid construction produces for one orientation,
in row-major DOM order. -/
def gridNames (name : Bool → ℕ → ℕ → String) (isFlipped : Bool) : List String :=
  (List.range 8).flatMap fun row => (List.range 8).map fun col => name isFlipped row col

/-- The 64 chessboard square names a1 through h8, each once. -/
def standardSquareNames : List String :=
  (List.range 8).flatMap fun r =>
    (List.range 8).map fun c => String.mk [Char.ofNat (97 + c)] ++ toString (r + 1)

/-! ### ChessGame / GameController state (js/game.js, js/game-controller.js)

The two files share the move-history and replay logic verbatim in the
modelled respects (`viewMoveAtIndex`, `showPreviousMove`, `showNextMove`,
`returnToCurrent`, the history push of `attemptMove` / `makeAIMove` /
`onMoveMade`); one model covers both.  chess.js is abstracted by
`apply : String → String → Option String`: `apply pos m = some pos'` means
`game.move(m)` succeeds from FEN `pos` and `game.fen()` then returns `pos'`;
`none` means the move is rejected.  `game.reset()` loads `START_FEN`. -/

namespace ChessGame

/-- One entry of `moveHistory`: `{move, fen, moveNumber}` (the extra
`player` field of game-controller.js does not matter to the claims). -/
structure HistEntry where
  moveId : String
  fen : String
  moveNumber : ℕ
deriving Repr, DecidableEq

/-- The FEN `game.reset()` / `new Chess()` loads (standard start position,
from the chess.js dependency). -/
def START_FEN : String :=
  "rnbqkbnr/pppppppp/8/8/8/8/PPPPPPPP/RNBQKBNR w KQkq - 0 1"

/-- The game state the history/replay claims speak about: the position
currently loaded in the chess.js instance, the `moveHistory` array and the
viewing-state variables. -/
structure GameSt where
  position : String
  moveHistory : List HistEntry
  isViewingHistory : Bool
  currentViewIndex : ℤ
deriving Repr, DecidableEq

/-- State after `startGameWithColor` / `GameController.init`. -/
def initState : GameSt :=
  { position := START_FEN, moveHistory := [],
    isViewingHistory := false, currentViewIndex := -1 }

/-- The history push performed after a successful `game.move` (js/game.js
lines 213-220 and 278-285, js/game-controller.js lines 298-314):
`moveNumber = Math.floor(moveHistory.length / 2) + 1`, `fen = game.fen()`
evaluated right after the move. -/
def pushMove (s : GameSt) (m newFen : String) : GameSt :=
  { s with
    position := newFen,
    moveHistory := s.moveHistory ++
      [{ moveId := m, fen := newFen,
         moveNumber := s.moveHistory.length / 2 + 1 }] }

/-- A human move attempt.  `handleSquareClick` returns early while
`isViewingHistory` (js/game.js line 131), so no push happens then; otherwise
`attemptMove` applies the move and pushes on success, and is a no-op on an
illegal move. -/
def attemptMove (apply : String → String → Option String)
    (s : GameSt) (m : String) : GameSt :=
  if s.isViewingHistory then s
  else
    match apply s.position m with
    | some newFen => pushMove s m newFen
    | none => s

/-- An AI move (`makeAIMove` / `processAIMove`): the guards
(`isAIThinking`, `game_over`, `isPaused`) only produce no-ops, which the
`apply _ _ = none` case also covers; a successful `game.move` pushes. -/
def makeAIMove (apply : String → String → Option String)
    (s : GameSt) (m : String) : GameSt :=
  match apply s.position m with
  | some newFen => pushMove s m newFen
  | none => s

/-- `viewMoveAtIndex` (js/game.js lines 421-438, js/game-controller.js
lines 515-528): out-of-range indices return early; otherwise the viewing
state is set and `game.load(moveHistory[index].fen)` replaces the position. -/
def viewMoveAtIndex (s : GameSt) (index : ℤ) : GameSt :=
  if index < 0 ∨ (s.moveHistory.length : ℤ) ≤ index then s
  else
    { s with
      isViewingHistory := true,
      currentViewIndex := index,
      position :=
        (s.moveHistory.getD index.toNat
          { moveId := "", fen := "", moveNumber := 0 }).fen }

/-- `returnToCurrent` (js/game.js lines 468-489): a no-op unless viewing;
otherwise clears the viewing state and loads the last entry's FEN, or
resets to the start position when the log is empty. -/
def returnToCurrent (s : GameSt) : GameSt :=
  if !s.isViewingHistory then s
  else
    { s with
      isViewingHistory := false,
      currentViewIndex := -1,
      position :=
        match s.moveHistory.getLast? with
        | some e => e.fen
        | none => START_FEN }

/-- `showPreviousMove` (js/game.js lines 443-452). -/
def showPreviousMove (s : GameSt) : GameSt :=
  if !s.isViewingHistory then
    if s.moveHistory.length > 0 then
      viewMoveAtIndex s ((s.moveHistory.length : ℤ) - 1)
    else s
  else if 0 < s.currentViewIndex then viewMoveAtIndex s (s.currentViewIndex - 1)
  else s

/-- `showNextMove` (js/game.js lines 457-463). -/
def showNextMove (s : GameSt) : GameSt :=
  if s.isViewingHistory && s.currentViewIndex < (s.moveHistory.length : ℤ) - 1 then
    viewMoveAtIndex s (s.currentViewIndex + 1)
  else if s.isViewingHistory && s.currentViewIndex == (s.moveHistory.length : ℤ) - 1 then
    returnToCurrent s
  else s

/-- The operations that touch the modelled state: human and AI moves, the
replay/scrubbing operations, and starting a new game (`newGame` resets
`moveHistory = []` at js/game.js line 532 and re-runs the init path). -/
inductive Op where
  | humanMove (m : String)
  | aiMove (m : String)
  | view (i : ℤ)
  | prev
  | next
  | backToCurrent
  | newGame
deriving Repr, DecidableEq

def step (apply : String → String → Option String) (s : GameSt) : Op → GameSt
  | .humanMove m => attemptMove apply s m
  | .aiMove m => makeAIMove apply s m
  | .view i => viewMoveAtIndex s i
  | .prev => showPreviousMove s
  | .next => showNextMove s
  | .backToCurrent => returnToCurrent s
  | .newGame => initState

/-- Running a sequence of operations from the initial state. -/
def run (apply : String → String → Option String) (ops : List Op) : GameSt :=
  ops.foldl (step apply) initState

/-- A state is reachable when some operation sequence produces it. -/
def Reachable (apply : String → String → Option String) (s : GameSt) : Prop :=
  ∃ ops, run apply ops = s

/-- The numbering invariant of claim C9: entry `i` carries
`moveNumber = ⌊i/2⌋ + 1`. -/
def logNumbersOK (s : GameSt) : Prop :=
  ∀ i : ℕ, ∀ h : i < s.moveHistory.length, (s.moveHistory[i]).moveNumber = i / 2 + 1

/-- A concrete legal-everywhere rules oracle used in counterexamples and
witnesses. -/
def applyConst : String → String → Option String := fun _ _ => some "fen-after"

/-- A concrete one-move state: a successful `e2e4` from the initial state
under `applyConst`. -/
def exampleOneMove : GameSt := step applyConst initState (.humanMove "e2e4")

/-! #### Promotion (js/game.js lines 200-211, js/game-controller.js 191-199) -/

/-- The chess.js piece record returned by `game.get(from)`. -/
structure BoardPiece where
  pieceType : Char
  color : Char
deriving Repr, DecidableEq

/-- JS `s[i]` on a string (out of range reads as a character that is never
`'8'`/`'1'`). -/
def charAt (s : String) (i : ℕ) : Char := s.toList.getD i ' '

/-- The `promotion` field `attemptMove` submits: `'q'` when the source piece
is a pawn and the destination string has `'8'` or `'1'` at index 1, and
absent (`undefined`) otherwise. -/
def promotionForMove (piece : Option BoardPiece) (toSq : String) : Option Char :=
  let isPromotion :=
    match piece with
    | some p => p.pieceType == 'p' && (charAt toSq 1 == '8' || charAt toSq 1 == '1')
    | none => false
  if isPromotion then some 'q' else none

end ChessGame

/-! ## Helper lemmas -/

lemma randomIndex_lt (r : ℚ) (n : ℕ) (h0 : 0 ≤ r) (h1 : r < 1) (hn : 0 < n) :
    randomIndex r n < n := by
  have hfl : ⌊r * (n : ℚ)⌋ < (n : ℤ) := by
    refine Int.floor_lt.mpr ?_
    push_cast
    calc r * n < 1 * n := mul_lt_mul_of_pos_right h1 (by exact_mod_cast hn)
      _ = n := one_mul _
  unfold randomIndex
  omega

lemma getRandomMove_eq_get (ms : List String) (r : ℚ) (h0 : 0 ≤ r)
    (h1 : r < 1) (hms : ms ≠ []) :
    ∃ h : randomIndex r ms.length < ms.length,
      getRandomMove (some ms) r = .ok (ms.get ⟨randomIndex r ms.length, h⟩) := by
  have hn : 0 < ms.length := List.length_pos.mpr hms
  have hlt := randomIndex_lt r ms.length h0 h1 hn
  refine ⟨hlt, ?_⟩
  simp only [getRandomMove]
  rw [if_neg (by omega)]
  simp [List.getD_eq_getElem?_getD, List.getElem?_eq_getElem hlt]

lemma getRandomMove_mem (ms : List String) (r : ℚ) (h0 : 0 ≤ r)
    (h1 : r < 1) (hms : ms ≠ []) :
    ∃ m, getRandomMove (some ms) r = .ok m ∧ m ∈ ms := by
  obtain ⟨h, heq⟩ := getRandomMove_eq_get ms r h0 h1 hms
  exact ⟨_, heq, List.get_mem ms _ h⟩

lemma grokRetryLoop_mem (oracle : ℕ → ApiResult) (ms : List String)
    (a fuel : ℕ) (m : String)
    (h : grokRetryLoop oracle ms a fuel = some m) : m ∈ ms := by
  induction fuel generalizing a with
  | zero => simp [grokRetryLoop] at h
  | succ fuel ih =>
    rw [grokRetryLoop] at h
    split at h
    · split at h
      next hcond =>
        obtain rfl : _ = m := by injection h
        have hc := (Bool.and_eq_true _ _).mp hcond
        simpa [isValidMove] using hc.2
      next hcond => exact ih _ h
    · exact ih _ h

lemma grokGetBestMove_ok_mem (cfg : GrokConfig) (oracle : ℕ → ApiResult)
    (fen : String) (ms : List String) (r : ℚ) (h0 : 0 ≤ r) (h1 : r < 1)
    (hms : ms ≠ []) :
    ∃ m, GrokAI.getBestMove cfg oracle fen ms r = .ok m ∧ m ∈ ms := by
  unfold GrokAI.getBestMove
  split
  · exact getRandomMove_mem ms r h0 h1 hms
  · split
    · exact getRandomMove_mem ms r h0 h1 hms
    · cases hloop : grokRetryLoop oracle ms 1 cfg.MAX_RETRIES with
      | none => simpa [hloop] using getRandomMove_mem ms r h0 h1 hms
      | some m =>
        exact ⟨m, by simp [hloop], grokRetryLoop_mem oracle ms 1 _ m hloop⟩

lemma validateOrFallback_ok_mem (e : Except String String)
    (ms : List String) (r : ℚ) (h0 : 0 ≤ r) (h1 : r < 1) (hms : ms ≠ []) :
    ∃ m, AIManager.validateOrFallback e ms r = .ok m ∧ m ∈ ms := by
  unfold AIManager.validateOrFallback
  cases e with
  | error e => exact getRandomMove_mem ms r h0 h1 hms
  | ok move =>
    by_cases hcond : (move != "" && isValidMove move ms) = true
    · refine ⟨move, by simp [hcond], ?_⟩
      have hc := (Bool.and_eq_true _ _).mp hcond
      simpa [isValidMove] using hc.2
    · simpa [hcond] using getRandomMove_mem ms r h0 h1 hms

lemma managerGetBestMove_ok_mem (provider difficulty : String)
    (sfAns : Except String String) (grokCfg : GrokConfig)
    (grokOracle : ℕ → ApiResult) (rg : ℚ) (fen : String) (ms : List String)
    (tt : Option ℕ) (r : ℚ)
    (h0 : 0 ≤ r) (h1 : r < 1)
    (hms : ms ≠ []) (hp : provider ≠ "human") :
    ∃ m, AIManager.getBestMove provider difficulty sfAns grokCfg grokOracle rg
          fen ms tt r = .ok m ∧ m ∈ ms := by
  unfold AIManager.getBestMove
  rw [if_neg (by simpa [AIManager.AIProvider.HUMAN] using hp)]
  exact validateOrFallback_ok_mem _ ms r h0 h1 hms

lemma grokRetryLoop_none (oracle : ℕ → ApiResult) (ms : List String)
    (a fuel : ℕ)
    (h : ∀ x, a ≤ x → x < a + fuel → attemptFails oracle ms x) :
    grokRetryLoop oracle ms a fuel = none := by
  induction fuel generalizing a with
  | zero => rfl
  | succ fuel ih =>
    have hrest : grokRetryLoop oracle ms (a + 1) fuel = none :=
      ih (a + 1) (fun x hx1 hx2 => h x (by omega) (by omega))
    have ha := h a (le_refl a) (by omega)
    unfold attemptFails at ha
    rw [grokRetryLoop]
    cases horacle : oracle a with
    | err => exact hrest
    | ok move =>
      rw [horacle] at ha
      simp only at ha
      simp only [ha, Bool.false_eq_true, if_false]
      exact hrest

lemma getRandomMove_ok_imp_mem (ms : List String) (r : ℚ) (h0 : 0 ≤ r)
    (h1 : r < 1) (m : String)
    (h : getRandomMove (some ms) r = .ok m) : m ∈ ms := by
  rcases eq_or_ne ms [] with rfl | hms
  · simp [getRandomMove] at h
  · obtain ⟨hlt, heq⟩ := getRandomMove_eq_get ms r h0 h1 hms
    rw [heq] at h
    obtain rfl : _ = m := by injection h
    exact List.get_mem ms _ hlt

lemma validateOrFallback_ok_imp_mem (e : Except String String)
    (ms : List String) (r : ℚ) (h0 : 0 ≤ r) (h1 : r < 1) (m : String)
    (h : AIManager.validateOrFallback e ms r = .ok m) : m ∈ ms := by
  unfold AIManager.validateOrFallback at h
  split at h
  · split at h
    next hcond =>
      obtain rfl : _ = m := by injection h
      have hc := (Bool.and_eq_true _ _).mp hcond
      simpa [isValidMove] using hc.2
    next => exact getRandomMove_ok_imp_mem ms r h0 h1 m h
  · exact getRandomMove_ok_imp_mem ms r h0 h1 m h

lemma managerGetBestMove_ok_imp_mem (provider difficulty : String)
    (sfAns : Except String String) (grokCfg : GrokConfig)
    (grokOracle : ℕ → ApiResult) (rg : ℚ) (fen : String) (ms : List String)
    (tt : Option ℕ) (r : ℚ) (h0 : 0 ≤ r) (h1 : r < 1) (m : String)
    (h : AIManager.getBestMove provider difficulty sfAns grokCfg grokOracle rg
          fen ms tt r = .ok m) : m ∈ ms := by
  unfold AIManager.getBestMove at h
  split at h
  · exact absurd h (by simp)
  · exact validateOrFallback_ok_imp_mem _ ms r h0 h1 m h

lemma grokRetryLoop_congr (oracle oracle' : ℕ → ApiResult) (ms : List String)
    (a fuel : ℕ)
    (h : ∀ x, a ≤ x → x < a + fuel → oracle' x = oracle x) :
    grokRetryLoop oracle' ms a fuel = grokRetryLoop oracle ms a fuel := by
  induction fuel generalizing a with
  | zero => rfl
  | succ fuel ih =>
    have hrest : grokRetryLoop oracle' ms (a + 1) fuel =
        grokRetryLoop oracle ms (a + 1) fuel :=
      ih (a + 1) (fun x hx1 hx2 => h x (by omega) (by omega))
    rw [grokRetryLoop, grokRetryLoop, h a (le_refl a) (by omega)]
    cases oracle a with
    | err => exact hrest
    | ok move =>
      simp only
      by_cases hcond : (move != "" && isValidMove move ms) = true
      · simp [hcond]
      · simp only [Bool.not_eq_true] at hcond
        simp only [hcond, Bool.false_eq_true, if_false]
        exact hrest

lemma randomIndex_eq_iff (n k : ℕ) (hk : k < n) (q : ℚ) :
    ((0 ≤ q ∧ q < 1) ∧ randomIndex q n = k) ↔
      ((k : ℚ) / n ≤ q ∧ q < ((k : ℚ) + 1) / n) := by
  have hn : (0 : ℚ) < n := by
    have : 0 < n := by omega
    exact_mod_cast this
  constructor
  · rintro ⟨⟨h0, _h1⟩, hidx⟩
    have hge : (0 : ℤ) ≤ ⌊q * (n : ℚ)⌋ := Int.floor_nonneg.mpr (by positivity)
    have hfl : ⌊q * (n : ℚ)⌋ = (k : ℤ) := by
      unfold randomIndex at hidx; omega
    have hiff := Int.floor_eq_iff.mp hfl
    push_cast at hiff
    constructor
    · rw [div_le_iff₀ hn]; exact hiff.1
    · rw [lt_div_iff₀ hn]; exact hiff.2
  · rintro ⟨hl, hr⟩
    have h0 : 0 ≤ q := le_trans (by positivity) hl
    have hkn : (k : ℚ) + 1 ≤ (n : ℚ) := by exact_mod_cast hk
    have h1 : q < 1 := lt_of_lt_of_le hr (by rw [div_le_one hn]; exact hkn)
    have hfl : ⌊q * (n : ℚ)⌋ = (k : ℤ) := by
      rw [Int.floor_eq_iff]
      push_cast
      constructor
      · rw [div_le_iff₀ hn] at hl; exact hl
      · rw [lt_div_iff₀ hn] at hr; exact hr
    refine ⟨⟨h0, h1⟩, ?_⟩
    unfold randomIndex
    rw [hfl]
    simp

namespace StockfishEngine

lemma applyUciok_callbackPending (line : String) (s : EngineSt) :
    (applyUciok line s).callbackPending = s.callbackPending := by
  unfold applyUciok
  split <;> rfl

lemma applyUciok_result (line : String) (s : EngineSt) :
    (applyUciok line s).result = s.result := by
  unfold applyUciok
  split <;> rfl

lemma applyBestmove_of_not_pending (line : String) (s : EngineSt)
    (h : s.callbackPending = false) : applyBestmove line s = s := by
  unfold applyBestmove
  split
  · rw [if_neg (by simp [h])]
  · rfl

lemma applyBestmove_result_of_pending (line : String) (s : EngineSt)
    (hline : strStartsWith line "bestmove" = true)
    (h : s.callbackPending = true) :
    (applyBestmove line s).result =
      some (.ok ((jsSplit ' ' line).getD 1 "")) := by
  unfold applyBestmove
  rw [if_pos hline, if_pos h]

lemma flushPending_result (s : EngineSt) :
    (flushPending s).result = s.result := by
  unfold flushPending
  split
  · split <;> rfl
  · rfl

lemma handleEngineOutput_result_of_not_pending (line : String)
    (s : EngineSt) (h : s.callbackPending = false) :
    (handleEngineOutput line s).result = s.result := by
  unfold handleEngineOutput
  rw [flushPending_result,
    applyBestmove_of_not_pending line _ (by rw [applyUciok_callbackPending]; exact h),
    applyUciok_result]

end StockfishEngine

namespace ChessGame

lemma viewMoveAtIndex_moveHistory (s : GameSt) (i : ℤ) :
    (viewMoveAtIndex s i).moveHistory = s.moveHistory := by
  unfold viewMoveAtIndex
  split <;> rfl

lemma returnToCurrent_moveHistory (s : GameSt) :
    (returnToCurrent s).moveHistory = s.moveHistory := by
  unfold returnToCurrent
  split <;> rfl

lemma showPreviousMove_moveHistory (s : GameSt) :
    (showPreviousMove s).moveHistory = s.moveHistory := by
  unfold showPreviousMove
  split
  · split
    · rw [viewMoveAtIndex_moveHistory]
    · rfl
  · split
    · rw [viewMoveAtIndex_moveHistory]
    · rfl

lemma showNextMove_moveHistory (s : GameSt) :
    (showNextMove s).moveHistory = s.moveHistory := by
  unfold showNextMove
  split
  · rw [viewMoveAtIndex_moveHistory]
  · split
    · rw [returnToCurrent_moveHistory]
    · rfl

lemma pushMove_moveHistory (s : GameSt) (m f : String) :
    (pushMove s m f).moveHistory = s.moveHistory ++
      [{ moveId := m, fen := f,
         moveNumber := s.moveHistory.length / 2 + 1 }] := rfl

lemma logNumbersOK_of_eq (s s' : GameSt)
    (h : s'.moveHistory = s.moveHistory) (hok : logNumbersOK s) :
    logNumbersOK s' := by
  intro i hi
  simp only [h] at hi ⊢
  exact hok i hi

lemma logNumbersOK_push (s : GameSt) (m f : String) (h : logNumbersOK s) :
    logNumbersOK (pushMove s m f) := by
  intro i hi
  simp only [pushMove_moveHistory] at hi ⊢
  rcases Nat.lt_or_ge i s.moveHistory.length with hlt | hge
  · rw [List.getElem_append_left hlt]
    exact h i hlt
  · have heq : i = s.moveHistory.length := by
      rw [List.length_append] at hi
      simp at hi
      omega
    subst heq
    rw [List.getElem_concat_length]
    rfl

lemma step_moveHistory_frame (apply : String → String → Option String)
    (s : GameSt) (op : Op) (hop : op ≠ Op.newGame) :
    (step apply s op).moveHistory = s.moveHistory ∨
      ∃ e, (step apply s op).moveHistory = s.moveHistory ++ [e] := by
  cases op with
  | humanMove m =>
    simp only [step]
    unfold attemptMove
    split
    · exact Or.inl rfl
    · split
      · exact Or.inr ⟨_, rfl⟩
      · exact Or.inl rfl
  | aiMove m =>
    simp only [step]
    unfold makeAIMove
    split
    · exact Or.inr ⟨_, rfl⟩
    · exact Or.inl rfl
  | view i => exact Or.inl (viewMoveAtIndex_moveHistory s i)
  | prev => exact Or.inl (showPreviousMove_moveHistory s)
  | next => exact Or.inl (showNextMove_moveHistory s)
  | backToCurrent => exact Or.inl (returnToCurrent_moveHistory s)
  | newGame => exact absurd rfl hop

lemma logNumbersOK_init : logNumbersOK initState := by
  intro i hi
  simp [initState] at hi

lemma logNumbersOK_step (apply : String → String → Option String)
    (s : GameSt) (op : Op) (h : logNumbersOK s) :
    logNumbersOK (step apply s op) := by
  cases op with
  | humanMove m =>
    simp only [step]
    unfold attemptMove
    split
    · exact h
    · split
      · exact logNumbersOK_push s m _ h
      · exact h
  | aiMove m =>
    simp only [step]
    unfold makeAIMove
    split
    · exact logNumbersOK_push s m _ h
    · exact h
  | view i => exact logNumbersOK_of_eq s _ (viewMoveAtIndex_moveHistory s i) h
  | prev => exact logNumbersOK_of_eq s _ (showPreviousMove_moveHistory s) h
  | next => exact logNumbersOK_of_eq s _ (showNextMove_moveHistory s) h
  | backToCurrent =>
    exact logNumbersOK_of_eq s _ (returnToCurrent_moveHistory s) h
  | newGame => exact logNumbersOK_init

lemma logNumbersOK_run (apply : String → String → Option String)
    (ops : List Op) : logNumbersOK (run apply ops) := by
  have key : ∀ s, logNumbersOK s → logNumbersOK (ops.foldl (step apply) s) := by
    induction ops with
    | nil => exact fun s h => h
    | cons op rest ih =>
      exact fun s h => ih _ (logNumbersOK_step apply s op h)
  exact key initState logNumbersOK_init

end ChessGame

/-! ## Claim theorems -/

/-- C1: for every position FEN and every non-empty legal-move whitelist, AI
move selection stays inside the whitelist: `GrokAI.getBestMove` resolves
with a whitelist member whatever the provider answers (legal, illegal or
error) at each attempt, and `AIManager.getBestMove` resolves only with
whitelist members (a provider answer is returned only if it passes the
membership check) and, for every non-human provider, does resolve with one
(substituting a whitelist move otherwise). -/
theorem ai_selection_returns_whitelist_move
    (cfg : GrokConfig) (oracle : ℕ → ApiResult) (fen : String)
    (ms : List String) (provider difficulty : String)
    (sfAns : Except String String) (tt : Option ℕ) (r rg : ℚ)
    (h0 : 0 ≤ r) (h1 : r < 1) (hg0 : 0 ≤ rg) (hg1 : rg < 1) (hms : ms ≠ []) :
    (∃ m, GrokAI.getBestMove cfg oracle fen ms rg = .ok m ∧ m ∈ ms)
    ∧ (∀ m, AIManager.getBestMove provider difficulty sfAns cfg oracle rg
        fen ms tt r = .ok m → m ∈ ms)
    ∧ (provider ≠ "human" →
        ∃ m, AIManager.getBestMove provider difficulty sfAns cfg oracle rg
          fen ms tt r = .ok m ∧ m ∈ ms) :=
  ⟨grokGetBestMove_ok_mem cfg oracle fen ms rg hg0 hg1 hms,
   fun m h => managerGetBestMove_ok_imp_mem provider difficulty sfAns cfg
     oracle rg fen ms tt r h0 h1 m h,
   fun hp => managerGetBestMove_ok_mem provider difficulty sfAns cfg oracle
     rg fen ms tt r h0 h1 hms hp⟩

/-- Witness for C1 at a concrete input: default config, an always-erroring
provider, the stockfish provider answering an off-whitelist move. -/
theorem ai_selection_returns_whitelist_move_witness :
    ((0 : ℚ) ≤ 0 ∧ (0 : ℚ) < 1 ∧ (["e2e4", "d2d4"] : List String) ≠ []) ∧
    ((∃ m, GrokAI.getBestMove GrokAI.defaultConfig (fun _ => .err) "startfen"
        ["e2e4", "d2d4"] 0 = .ok m ∧ m ∈ ["e2e4", "d2d4"])
    ∧ (∀ m, AIManager.getBestMove "stockfish" "intermediate" (.ok "h7h5")
        GrokAI.defaultConfig (fun _ => .err) 0 "startfen" ["e2e4", "d2d4"]
        none 0 = .ok m → m ∈ ["e2e4", "d2d4"])
    ∧ ("stockfish" ≠ "human" →
        ∃ m, AIManager.getBestMove "stockfish" "intermediate" (.ok "h7h5")
          GrokAI.defaultConfig (fun _ => .err) 0 "startfen" ["e2e4", "d2d4"]
          none 0 = .ok m ∧ m ∈ ["e2e4", "d2d4"])) :=
  ⟨⟨le_refl 0, by norm_num, by simp⟩,
   ai_selection_returns_whitelist_move GrokAI.defaultConfig (fun _ => .err)
     "startfen" ["e2e4", "d2d4"] "stockfish" "intermediate" (.ok "h7h5")
     none 0 0 (le_refl 0) (by norm_num) (le_refl 0) (by norm_num) (by simp)⟩

/-- C2: with a configured key and the shipped `MAX_RETRIES = 3`, the API
call is retried 3 times — the result depends only on the answers of
attempts 1..3 — and when every attempt fails or yields an off-whitelist
answer the result is the random fallback; for a non-empty whitelist the
call always resolves with a legal move, never with the provider failure. -/
theorem grok_retry_failure_policy
    (cfg : GrokConfig) (oracle oracle' : ℕ → ApiResult) (fen : String)
    (ms : List String) (r : ℚ)
    (hEn : cfg.AI_ENABLED = true) (hk1 : cfg.GROK_API_KEY ≠ "")
    (hk2 : cfg.GROK_API_KEY ≠ "your-api-key-here") (hmr : cfg.MAX_RETRIES = 3)
    (h0 : 0 ≤ r) (h1 : r < 1) (hms : ms ≠ []) :
    GrokAI.defaultConfig.MAX_RETRIES = 3
    ∧ ((∀ a, 1 ≤ a → a ≤ 3 → attemptFails oracle ms a) →
        GrokAI.getBestMove cfg oracle fen ms r = getRandomMove (some ms) r)
    ∧ (∃ m, GrokAI.getBestMove cfg oracle fen ms r = .ok m ∧ m ∈ ms)
    ∧ ((∀ a, 1 ≤ a → a ≤ 3 → oracle' a = oracle a) →
        GrokAI.getBestMove cfg oracle' fen ms r =
          GrokAI.getBestMove cfg oracle fen ms r) := by
  refine ⟨rfl, ?_, grokGetBestMove_ok_mem cfg oracle fen ms r h0 h1 hms, ?_⟩
  · intro hfail
    have hnone : grokRetryLoop oracle ms 1 cfg.MAX_RETRIES = none := by
      rw [hmr]
      exact grokRetryLoop_none oracle ms 1 3
        (fun x hx1 hx2 => hfail x hx1 (by omega))
    unfold GrokAI.getBestMove
    split
    next hdis => simp [hEn] at hdis
    next =>
      split
      next hkey =>
        rcases hkey with hk | hk
        · exact absurd hk hk1
        · exact absurd hk hk2
      next => rw [hnone]
  · intro hagree
    have h4 : ∀ x, 1 ≤ x → x < 1 + cfg.MAX_RETRIES → oracle' x = oracle x := by
      rw [hmr]
      exact fun x hx1 hx2 => hagree x hx1 (by omega)
    unfold GrokAI.getBestMove
    rw [grokRetryLoop_congr oracle oracle' ms 1 cfg.MAX_RETRIES h4]

/-- Witness for C2 at a concrete input: key `"k"`, all three attempts
erroring. -/
theorem grok_retry_failure_policy_witness :
    (({ AI_ENABLED := true, GROK_API_KEY := "k", MAX_RETRIES := 3 } :
        GrokConfig).AI_ENABLED = true
      ∧ ("k" : String) ≠ "" ∧ ("k" : String) ≠ "your-api-key-here"
      ∧ (0 : ℚ) ≤ 0 ∧ (0 : ℚ) < 1 ∧ (["e2e4"] : List String) ≠ []) ∧
    (GrokAI.defaultConfig.MAX_RETRIES = 3
    ∧ ((∀ a, 1 ≤ a → a ≤ 3 →
          attemptFails (fun _ => .err) ["e2e4"] a) →
        GrokAI.getBestMove
          { AI_ENABLED := true, GROK_API_KEY := "k", MAX_RETRIES := 3 }
          (fun _ => .err) "startfen" ["e2e4"] 0 =
          getRandomMove (some ["e2e4"]) 0)
    ∧ (∃ m, GrokAI.getBestMove
          { AI_ENABLED := true, GROK_API_KEY := "k", MAX_RETRIES := 3 }
          (fun _ => .err) "startfen" ["e2e4"] 0 = .ok m ∧ m ∈ ["e2e4"])
    ∧ ((∀ a, 1 ≤ a → a ≤ 3 → (fun _ => ApiResult.err) a = (fun _ => ApiResult.err) a) →
        GrokAI.getBestMove
          { AI_ENABLED := true, GROK_API_KEY := "k", MAX_RETRIES := 3 }
          (fun _ => .err) "startfen" ["e2e4"] 0 =
        GrokAI.getBestMove
          { AI_ENABLED := true, GROK_API_KEY := "k", MAX_RETRIES := 3 }
          (fun _ => .err) "startfen" ["e2e4"] 0)) :=
  ⟨⟨rfl, by decide, by decide, le_refl 0, by norm_num, by simp⟩,
   grok_retry_failure_policy
     { AI_ENABLED := true, GROK_API_KEY := "k", MAX_RETRIES := 3 }
     (fun _ => .err) (fun _ => .err) "startfen" ["e2e4"] 0 rfl (by decide)
     (by decide) rfl (le_refl 0) (by norm_num) (by simp)⟩

/-- C5: the fallback picks index `⌊r·n⌋` (in range for `0 ≤ r < 1`), and
for each `k < n` the set of draws selecting index `k` is exactly the
interval `[k/n, (k+1)/n)` of `[0,1)`, whose length is `1/n` — each of the
`n` moves is chosen with probability `1/n` under a uniform draw; an empty
or missing whitelist yields the error `No legal moves available`. -/
theorem getRandomMove_uniform (ms : List String) (r : ℚ) (k : ℕ)
    (h0 : 0 ≤ r) (h1 : r < 1) (hk : k < ms.length) :
    (∃ h : randomIndex r ms.length < ms.length,
        getRandomMove (some ms) r = .ok (ms.get ⟨randomIndex r ms.length, h⟩))
    ∧ (∀ q : ℚ, ((0 ≤ q ∧ q < 1) ∧ randomIndex q ms.length = k) ↔
        ((k : ℚ) / ms.length ≤ q ∧ q < ((k : ℚ) + 1) / ms.length))
    ∧ ((k : ℚ) + 1) / ms.length - (k : ℚ) / ms.length = 1 / ms.length
    ∧ getRandomMove none r = .error "No legal moves available"
    ∧ getRandomMove (some []) r = .error "No legal moves available" := by
  have hms : ms ≠ [] := by
    intro h
    rw [h] at hk
    simp at hk
  refine ⟨getRandomMove_eq_get ms r h0 h1 hms,
          fun q => randomIndex_eq_iff ms.length k hk q, by ring, rfl, rfl⟩

/-- Witness for C5 at a concrete input: two moves, draw `r = 1/2` picking
index 1, interval characterisation at `k = 0`. -/
theorem getRandomMove_uniform_witness :
    ((0 : ℚ) ≤ 1/2 ∧ (1/2 : ℚ) < 1 ∧ 0 < (["e2e4", "d2d4"] : List String).length) ∧
    ((∃ h : randomIndex (1/2) (["e2e4", "d2d4"] : List String).length <
        (["e2e4", "d2d4"] : List String).length,
        getRandomMove (some ["e2e4", "d2d4"]) (1/2) =
          .ok ((["e2e4", "d2d4"] : List String).get
            ⟨randomIndex (1/2) (["e2e4", "d2d4"] : List String).length, h⟩))
    ∧ (∀ q : ℚ, ((0 ≤ q ∧ q < 1) ∧
          randomIndex q (["e2e4", "d2d4"] : List String).length = 0) ↔
        ((0 : ℚ) / (["e2e4", "d2d4"] : List String).length ≤ q ∧
          q < ((0 : ℚ) + 1) / (["e2e4", "d2d4"] : List String).length))
    ∧ ((0 : ℚ) + 1) / (["e2e4", "d2d4"] : List String).length -
        (0 : ℚ) / (["e2e4", "d2d4"] : List String).length =
        1 / (["e2e4", "d2d4"] : List String).length
    ∧ getRandomMove none (1/2) = .error "No legal moves available"
    ∧ getRandomMove (some []) (1/2) = .error "No legal moves available") :=
  ⟨⟨by norm_num, by norm_num, by simp⟩,
   getRandomMove_uniform ["e2e4", "d2d4"] (1/2) 0 (by norm_num) (by norm_num)
     (by simp)⟩

/-- C3: the engine request timeout is `CONFIG.TIMEOUT = 30000` ms; when it
fires with the request still pending, the request is rejected with
`Stockfish timeout` and the callback is cleared, so a `bestmove` line
arriving afterwards is not delivered to the request (its settlement stays
the timeout rejection). -/
theorem stockfish_timeout_guard (s : StockfishEngine.EngineSt)
    (hp : s.callbackPending = true) :
    StockfishEngine.CONFIG.TIMEOUT = 30000
    ∧ (StockfishEngine.timeoutFires s).result =
        some (.error "Stockfish timeout")
    ∧ (StockfishEngine.timeoutFires s).callbackPending = false
    ∧ ∀ line, (StockfishEngine.handleEngineOutput line
        (StockfishEngine.timeoutFires s)).result =
        some (.error "Stockfish timeout") := by
  have hres : (StockfishEngine.timeoutFires s).result =
      some (.error "Stockfish timeout") := by
    unfold StockfishEngine.timeoutFires
    rw [if_pos hp]
  have hpend : (StockfishEngine.timeoutFires s).callbackPending = false := by
    unfold StockfishEngine.timeoutFires
    rw [if_pos hp]
  refine ⟨rfl, hres, hpend, fun line => ?_⟩
  rw [StockfishEngine.handleEngineOutput_result_of_not_pending line _ hpend,
    hres]

/-- Witness for C3 at a concrete input: a ready engine with a pending
request; after the timeout a `bestmove d7d5` line changes nothing. -/
theorem stockfish_timeout_guard_witness :
    (({ engineReady := true, callbackPending := true, result := none,
        pendingCommands := [], sent := [] } :
        StockfishEngine.EngineSt).callbackPending = true) ∧
    (StockfishEngine.CONFIG.TIMEOUT = 30000
    ∧ (StockfishEngine.timeoutFires
        { engineReady := true, callbackPending := true, result := none,
          pendingCommands := [], sent := [] }).result =
        some (.error "Stockfish timeout")
    ∧ (StockfishEngine.timeoutFires
        { engineReady := true, callbackPending := true, result := none,
          pendingCommands := [], sent := [] }).callbackPending = false
    ∧ ∀ line, (StockfishEngine.handleEngineOutput line
        (StockfishEngine.timeoutFires
          { engineReady := true, callbackPending := true, result := none,
            pendingCommands := [], sent := [] })).result =
        some (.error "Stockfish timeout")) :=
  ⟨rfl,
   stockfish_timeout_guard
     { engineReady := true, callbackPending := true, result := none,
       pendingCommands := [], sent := [] } rfl⟩

/-- C4: an engine move request sends `position fen <fen>` followed by a
`go` command — `go movetime t` when a (truthy) thinking time is supplied,
`go depth d` with the difficulty-determined depth otherwise — and the
request resolves with the second whitespace-separated token of the
engine's `bestmove ...` line. -/
theorem stockfish_uci_protocol (fen difficulty line : String) (t : ℕ)
    (s : StockfishEngine.EngineSt) (ht : t ≠ 0)
    (hline : StockfishEngine.strStartsWith line "bestmove" = true)
    (hp : s.callbackPending = true) :
    StockfishEngine.getBestMoveCommands fen difficulty (some t) =
      ["setoption name Skill Level value " ++
         toString (StockfishEngine.skillLevelFor difficulty),
       "position fen " ++ fen,
       "go movetime " ++ toString t]
    ∧ StockfishEngine.getBestMoveCommands fen difficulty none =
      ["setoption name Skill Level value " ++
         toString (StockfishEngine.skillLevelFor difficulty),
       "position fen " ++ fen,
       "go depth " ++
         toString (StockfishEngine.getDepthForDifficulty difficulty)]
    ∧ (StockfishEngine.handleEngineOutput line s).result =
        some (.ok ((StockfishEngine.jsSplit ' ' line).getD 1 ""))
    ∧ ((StockfishEngine.jsSplit ' ' "bestmove e2e4 ponder e7e5").getD 1 "") =
        "e2e4" := by
  refine ⟨?_, rfl, ?_, by decide⟩
  · unfold StockfishEngine.getBestMoveCommands StockfishEngine.goCommand
    simp [ht]
  · unfold StockfishEngine.handleEngineOutput
    rw [StockfishEngine.flushPending_result,
      StockfishEngine.applyBestmove_result_of_pending line _ hline
        (by rw [StockfishEngine.applyUciok_callbackPending]; exact hp)]

/-- Witness for C4 at a concrete input: `fen0`, master difficulty,
1500 ms thinking time, and the output line `bestmove d7d5 ponder g1f3`
settling a pending request with `d7d5`. -/
theorem stockfish_uci_protocol_witness :
    ((1500 : ℕ) ≠ 0
      ∧ StockfishEngine.strStartsWith "bestmove d7d5 ponder g1f3" "bestmove" = true
      ∧ ({ engineReady := true, callbackPending := true, result := none,
           pendingCommands := [], sent := [] } :
           StockfishEngine.EngineSt).callbackPending = true) ∧
    (StockfishEngine.getBestMoveCommands "fen0" "master" (some 1500) =
      ["setoption name Skill Level value " ++
         toString (StockfishEngine.skillLevelFor "master"),
       "position fen " ++ "fen0",
       "go movetime " ++ toString 1500]
    ∧ StockfishEngine.getBestMoveCommands "fen0" "master" none =
      ["setoption name Skill Level value " ++
         toString (StockfishEngine.skillLevelFor "master"),
       "position fen " ++ "fen0",
       "go depth " ++
         toString (StockfishEngine.getDepthForDifficulty "master")]
    ∧ (StockfishEngine.handleEngineOutput "bestmove d7d5 ponder g1f3"
        { engineReady := true, callbackPending := true, result := none,
          pendingCommands := [], sent := [] }).result =
        some (.ok ((StockfishEngine.jsSplit ' ' "bestmove d7d5 ponder g1f3").getD 1 ""))
    ∧ ((StockfishEngine.jsSplit ' ' "bestmove e2e4 ponder e7e5").getD 1 "") =
        "e2e4") :=
  ⟨⟨by decide, by decide, rfl⟩,
   stockfish_uci_protocol "fen0" "master" "bestmove d7d5 ponder g1f3" 1500
     { engineReady := true, callbackPending := true, result := none,
       pendingCommands := [], sent := [] }
     (by decide) (by decide) rfl⟩

/-- C8 counterexample: at the unflipped grid cell (0,0) both constructions
name the square a8, but js/board.js assigns the class `square light` while
the copy embedded in js/stockfish-engine.js assigns `square dark` — the two
implementations do not assign the same light/dark class. -/
theorem createBoard_copies_counterexample :
    BoardJs.squareName false 0 0 = EngineBoard.squareName false 0 0
    ∧ BoardJs.className false 0 0 = "square light"
    ∧ EngineBoard.className false 0 0 = "square dark" := by
  refine ⟨by decide, by decide, by decide⟩

/-- C8 (amended): for each orientation and each grid cell the two
`createBoard` implementations compute the same square name, and over all 64
cells exactly the names a1 through h8, each once; but their light/dark
classes are opposite — a cell is `square dark` in js/board.js exactly when
it is `square light` in the embedded copy. -/
theorem createBoard_copies_equivalence_amended :
    (∀ (f : Bool) (row col : Fin 8),
        BoardJs.squareName f row col = EngineBoard.squareName f row col)
    ∧ (∀ f : Bool, (gridNames BoardJs.squareName f).Perm standardSquareNames)
    ∧ (∀ f : Bool, (gridNames EngineBoard.squareName f).Perm standardSquareNames)
    ∧ (∀ (f : Bool) (row col : Fin 8),
        BoardJs.className f row col = "square dark" ↔
          EngineBoard.className f row col = "square light") := by
  refine ⟨by decide, by decide, by decide, by decide⟩

/-- C6 counterexample: for the unknown provider name `alphazero` and the
non-empty whitelist `[e2e4]` the request does not fail — the
unknown-provider error is thrown inside the `try` block, caught, and a
random whitelist move is substituted, so the call resolves with `e2e4`. -/
theorem provider_dispatch_counterexample :
    AIManager.getBestMove "alphazero" "intermediate" (.error "unused")
      GrokAI.defaultConfig (fun _ => .err) 0 "fen0" ["e2e4"] none 0 =
      .ok "e2e4" := by
  have hidx : randomIndex 0 1 = 0 := by
    simp [randomIndex]
  unfold AIManager.getBestMove
  rw [if_neg (by decide), if_neg (by decide), if_neg (by decide)]
  unfold AIManager.validateOrFallback
  unfold getRandomMove
  simp [hidx]

/-- C6 (amended): `AIManager.getBestMove` knows exactly the three providers:
the `human` provider is rejected with `Cannot get move for human player`;
the `stockfish` provider's engine answer is returned when truthy and legal;
the `grok` provider's remote answer is returned when truthy and legal; and
for any provider name outside the set no provider move is supplied — the
call falls back to `getRandomMove` and still resolves with a whitelist
move, failing only when the whitelist is empty. -/
theorem provider_dispatch_amended
    (provider difficulty fen : String) (sfAns : Except String String)
    (cfg : GrokConfig) (oracle : ℕ → ApiResult) (rg r : ℚ)
    (ms : List String) (tt : Option ℕ) (m : String)
    (h0 : 0 ≤ r) (h1 : r < 1) (hms : ms ≠ []) :
    (AIManager.getBestMove "human" difficulty sfAns cfg oracle rg fen ms tt r
        = .error "Cannot get move for human player")
    ∧ (sfAns = .ok m → m ≠ "" → m ∈ ms →
        AIManager.getBestMove "stockfish" difficulty sfAns cfg oracle rg fen
          ms tt r = .ok m)
    ∧ (GrokAI.getBestMove cfg oracle fen ms rg = .ok m → m ≠ "" → m ∈ ms →
        AIManager.getBestMove "grok" difficulty sfAns cfg oracle rg fen ms
          tt r = .ok m)
    ∧ (provider ∉ (["human", "stockfish", "grok"] : List String) →
        AIManager.getBestMove provider difficulty sfAns cfg oracle rg fen ms
            tt r = getRandomMove (some ms) r
        ∧ ∃ mm, AIManager.getBestMove provider difficulty sfAns cfg oracle rg
            fen ms tt r = .ok mm ∧ mm ∈ ms) := by
  refine ⟨rfl, ?_, ?_, ?_⟩
  · intro hsf hne hmem
    subst hsf
    unfold AIManager.getBestMove
    rw [if_neg (by simp [AIManager.AIProvider.HUMAN]),
      if_pos (by rfl : ("stockfish" : String) = AIManager.AIProvider.STOCKFISH)]
    unfold AIManager.validateOrFallback
    simp only
    rw [if_pos]
    simp only [Bool.and_eq_true, bne_iff_ne, ne_eq]
    exact ⟨hne, by simpa [isValidMove] using hmem⟩
  · intro hgrok hne hmem
    unfold AIManager.getBestMove
    rw [if_neg (by simp [AIManager.AIProvider.HUMAN]),
      if_neg (by simp [AIManager.AIProvider.STOCKFISH]),
      if_pos (by rfl : ("grok" : String) = AIManager.AIProvider.GROK), hgrok]
    unfold AIManager.validateOrFallback
    simp only
    rw [if_pos]
    simp only [Bool.and_eq_true, bne_iff_ne, ne_eq]
    exact ⟨hne, by simpa [isValidMove] using hmem⟩
  · intro hunk
    simp only [List.mem_cons, List.mem_singleton, not_or] at hunk
    obtain ⟨hh, hs, hg, -⟩ :
        provider ≠ "human" ∧ provider ≠ "stockfish" ∧ provider ≠ "grok" ∧
          True := by
      refine ⟨hunk.1, hunk.2.1, ?_, trivial⟩
      simpa using hunk.2.2
    have heq : AIManager.getBestMove provider difficulty sfAns cfg oracle rg
        fen ms tt r = getRandomMove (some ms) r := by
      unfold AIManager.getBestMove
      rw [if_neg (by simpa [AIManager.AIProvider.HUMAN] using hh),
        if_neg (by simpa [AIManager.AIProvider.STOCKFISH] using hs),
        if_neg (by simpa [AIManager.AIProvider.GROK] using hg)]
      rfl
    refine ⟨heq, ?_⟩
    rw [heq]
    exact getRandomMove_mem ms r h0 h1 hms

/-- Witness for C6 at a concrete input. -/
theorem provider_dispatch_amended_witness :
    ((0 : ℚ) ≤ 0 ∧ (0 : ℚ) < 1 ∧ (["e2e4"] : List String) ≠ []) ∧
    ((AIManager.getBestMove "human" "intermediate" (.ok "e2e4")
        GrokAI.defaultConfig (fun _ => .err) 0 "fen0" ["e2e4"] none 0
        = .error "Cannot get move for human player")
    ∧ ((Except.ok "e2e4" : Except String String) = .ok "e2e4" →
        "e2e4" ≠ "" → "e2e4" ∈ ["e2e4"] →
        AIManager.getBestMove "stockfish" "intermediate" (.ok "e2e4")
          GrokAI.defaultConfig (fun _ => .err) 0 "fen0" ["e2e4"] none 0
          = .ok "e2e4")
    ∧ (GrokAI.getBestMove GrokAI.defaultConfig (fun _ => .err) "fen0"
          ["e2e4"] 0 = .ok "e2e4" → "e2e4" ≠ "" → "e2e4" ∈ ["e2e4"] →
        AIManager.getBestMove "grok" "intermediate" (.ok "e2e4")
          GrokAI.defaultConfig (fun _ => .err) 0 "fen0" ["e2e4"] none 0
          = .ok "e2e4")
    ∧ ("alphazero" ∉ (["human", "stockfish", "grok"] : List String) →
        AIManager.getBestMove "alphazero" "intermediate" (.ok "e2e4")
            GrokAI.defaultConfig (fun _ => .err) 0 "fen0" ["e2e4"] none 0
          = getRandomMove (some ["e2e4"]) 0
        ∧ ∃ mm, AIManager.getBestMove "alphazero" "intermediate" (.ok "e2e4")
            GrokAI.defaultConfig (fun _ => .err) 0 "fen0" ["e2e4"] none 0
          = .ok mm ∧ mm ∈ ["e2e4"])) :=
  ⟨⟨le_refl 0, by norm_num, by simp⟩,
   provider_dispatch_amended "alphazero" "intermediate" "fen0" (.ok "e2e4")
     GrokAI.defaultConfig (fun _ => .err) 0 0 ["e2e4"] none "e2e4"
     (le_refl 0) (by norm_num) (by simp)⟩

/-- C7: replay/scrubbing never modifies the log: `viewMoveAtIndex` leaves
every entry of `moveHistory` unchanged at any index, sets the displayed
position to exactly the FEN stored in entry `i` (with the viewing state
recorded) when `0 ≤ i < length`, and is a no-op for an out-of-range index;
`returnToCurrent` also leaves the log unchanged, clears the viewing state,
and restores the FEN of the last entry — or the initial position when the
log is empty. -/
theorem replay_preserves_log (s : ChessGame.GameSt) (i : ℤ)
    (hi0 : 0 ≤ i) (hilt : i < (s.moveHistory.length : ℤ))
    (hview : s.isViewingHistory = true) :
    (∀ j : ℤ, (ChessGame.viewMoveAtIndex s j).moveHistory = s.moveHistory)
    ∧ (ChessGame.viewMoveAtIndex s i).position =
        (s.moveHistory.getD i.toNat
          { moveId := "", fen := "", moveNumber := 0 }).fen
    ∧ (ChessGame.viewMoveAtIndex s i).isViewingHistory = true
    ∧ (ChessGame.viewMoveAtIndex s i).currentViewIndex = i
    ∧ (∀ j : ℤ, (j < 0 ∨ (s.moveHistory.length : ℤ) ≤ j) →
        ChessGame.viewMoveAtIndex s j = s)
    ∧ (ChessGame.returnToCurrent s).moveHistory = s.moveHistory
    ∧ (ChessGame.returnToCurrent s).isViewingHistory = false
    ∧ (ChessGame.returnToCurrent s).currentViewIndex = -1
    ∧ (s.moveHistory = [] →
        (ChessGame.returnToCurrent s).position = ChessGame.START_FEN)
    ∧ (∀ e, s.moveHistory.getLast? = some e →
        (ChessGame.returnToCurrent s).position = e.fen) := by
  have hin : ¬ (i < 0 ∨ (s.moveHistory.length : ℤ) ≤ i) := by omega
  have hview' : ChessGame.viewMoveAtIndex s i =
      { s with
        isViewingHistory := true,
        currentViewIndex := i,
        position := (s.moveHistory.getD i.toNat
          { moveId := "", fen := "", moveNumber := 0 }).fen } := by
    unfold ChessGame.viewMoveAtIndex
    rw [if_neg hin]
  have hret : ChessGame.returnToCurrent s =
      { s with
        isViewingHistory := false,
        currentViewIndex := -1,
        position :=
          match s.moveHistory.getLast? with
          | some e => e.fen
          | none => ChessGame.START_FEN } := by
    unfold ChessGame.returnToCurrent
    rw [hview]
    rfl
  refine ⟨fun j => ChessGame.viewMoveAtIndex_moveHistory s j,
    by rw [hview'], by rw [hview'], by rw [hview'],
    fun j hj => by unfold ChessGame.viewMoveAtIndex; rw [if_pos hj],
    ChessGame.returnToCurrent_moveHistory s,
    by rw [hret], by rw [hret], ?_, ?_⟩
  · intro hemp
    rw [hret]
    simp [hemp]
  · intro e he
    rw [hret]
    simp [he]

/-- Witness for C7 at a concrete input: the one-move state put into viewing
mode, viewed at index 0. -/
theorem replay_preserves_log_witness :
    ((0 : ℤ) ≤ 0
      ∧ (0 : ℤ) <
        ((ChessGame.viewMoveAtIndex ChessGame.exampleOneMove 0).moveHistory.length : ℤ)
      ∧ (ChessGame.viewMoveAtIndex ChessGame.exampleOneMove 0).isViewingHistory
          = true) ∧
    ((ChessGame.returnToCurrent
        (ChessGame.viewMoveAtIndex ChessGame.exampleOneMove 0)).moveHistory =
      (ChessGame.viewMoveAtIndex ChessGame.exampleOneMove 0).moveHistory
    ∧ (ChessGame.viewMoveAtIndex
        (ChessGame.viewMoveAtIndex ChessGame.exampleOneMove 0) 0).position =
      ((ChessGame.viewMoveAtIndex ChessGame.exampleOneMove 0).moveHistory.getD 0
        { moveId := "", fen := "", moveNumber := 0 }).fen) := by
  have h := replay_preserves_log
    (ChessGame.viewMoveAtIndex ChessGame.exampleOneMove 0) 0
    (by decide) (by decide) (by decide)
  exact ⟨⟨by decide, by decide, by decide⟩, h.2.2.2.2.2.1, by
    have := h.2.1
    simpa using this⟩

/-- C9 counterexample: starting a new game is an operation that removes
existing log entries — from the one-move state, `newGame` resets the log to
`[]`, which neither leaves the log unchanged nor appends one entry. -/
theorem history_log_counterexample :
    ChessGame.exampleOneMove.moveHistory =
      [{ moveId := "e2e4", fen := "fen-after", moveNumber := 1 }]
    ∧ (ChessGame.step ChessGame.applyConst ChessGame.exampleOneMove
        ChessGame.Op.newGame).moveHistory = []
    ∧ ¬ ((ChessGame.step ChessGame.applyConst ChessGame.exampleOneMove
          ChessGame.Op.newGame).moveHistory =
            ChessGame.exampleOneMove.moveHistory
        ∨ ∃ e, (ChessGame.step ChessGame.applyConst ChessGame.exampleOneMove
            ChessGame.Op.newGame).moveHistory =
              ChessGame.exampleOneMove.moveHistory ++ [e]) := by
  refine ⟨by decide, by decide, ?_⟩
  rintro (h | ⟨e, h⟩)
  · exact absurd h (by decide)
  · have h' : ([] : List ChessGame.HistEntry) =
        ChessGame.exampleOneMove.moveHistory ++ [e] := by
      rw [← h]
      decide
    simp at h'

/-- C9 (amended): in every reachable state the log satisfies the numbering
invariant (`moveNumber` of entry `i` is `⌊i/2⌋ + 1`); every operation other
than starting a new game (which resets the log to empty) either leaves the
log unchanged or appends exactly one entry at the end, never mutating or
removing existing entries; and a successful move appends the entry whose
`fen` is exactly the position reached by that move, numbered from the log
length. -/
theorem history_log_invariant_amended
    (apply : String → String → Option String) (ops : List ChessGame.Op)
    (s : ChessGame.GameSt) (op : ChessGame.Op) (m f : String)
    (hop : op ≠ ChessGame.Op.newGame)
    (happly : apply s.position m = some f)
    (hnv : s.isViewingHistory = false) :
    ChessGame.logNumbersOK (ChessGame.run apply ops)
    ∧ ((ChessGame.step apply s op).moveHistory = s.moveHistory ∨
        ∃ e, (ChessGame.step apply s op).moveHistory = s.moveHistory ++ [e])
    ∧ (ChessGame.makeAIMove apply s m).moveHistory =
        s.moveHistory ++
          [{ moveId := m, fen := f,
             moveNumber := s.moveHistory.length / 2 + 1 }]
    ∧ (ChessGame.makeAIMove apply s m).position = f
    ∧ ChessGame.attemptMove apply s m = ChessGame.makeAIMove apply s m := by
  have hmk : ChessGame.makeAIMove apply s m = ChessGame.pushMove s m f := by
    unfold ChessGame.makeAIMove
    rw [happly]
  refine ⟨ChessGame.logNumbersOK_run apply ops,
    ChessGame.step_moveHistory_frame apply s op hop, ?_, ?_, ?_⟩
  · rw [hmk, ChessGame.pushMove_moveHistory]
  · rw [hmk]
    rfl
  · unfold ChessGame.attemptMove
    rw [if_neg (by simp [hnv])]
    rfl

/-- Witness for C9 (amended) at a concrete input: one human move then a
view operation under the always-legal oracle. -/
theorem history_log_invariant_amended_witness :
    (ChessGame.Op.view 0 ≠ ChessGame.Op.newGame
      ∧ ChessGame.applyConst ChessGame.exampleOneMove.position "d7d5" =
          some "fen-after"
      ∧ ChessGame.exampleOneMove.isViewingHistory = false) ∧
    (ChessGame.logNumbersOK (ChessGame.run ChessGame.applyConst
        [ChessGame.Op.humanMove "e2e4", ChessGame.Op.view 0])
    ∧ ((ChessGame.step ChessGame.applyConst ChessGame.exampleOneMove
          (ChessGame.Op.view 0)).moveHistory =
            ChessGame.exampleOneMove.moveHistory ∨
        ∃ e, (ChessGame.step ChessGame.applyConst ChessGame.exampleOneMove
          (ChessGame.Op.view 0)).moveHistory =
            ChessGame.exampleOneMove.moveHistory ++ [e])
    ∧ (ChessGame.makeAIMove ChessGame.applyConst ChessGame.exampleOneMove
        "d7d5").moveHistory =
        ChessGame.exampleOneMove.moveHistory ++
          [{ moveId := "d7d5",
             fen := "fen-after",
             moveNumber :=
               ChessGame.exampleOneMove.moveHistory.length / 2 + 1 }]
    ∧ (ChessGame.makeAIMove ChessGame.applyConst ChessGame.exampleOneMove
        "d7d5").position = "fen-after"
    ∧ ChessGame.attemptMove ChessGame.applyConst ChessGame.exampleOneMove
        "d7d5" =
      ChessGame.makeAIMove ChessGame.applyConst ChessGame.exampleOneMove
        "d7d5") :=
  ⟨⟨by decide, by decide, by decide⟩,
   history_log_invariant_amended ChessGame.applyConst
     [ChessGame.Op.humanMove "e2e4", ChessGame.Op.view 0]
     ChessGame.exampleOneMove (ChessGame.Op.view 0) "d7d5" "fen-after"
     (by decide) (by decide) (by decide)⟩

/-- C10: a human move of a pawn landing on rank 8 or rank 1 is always
submitted with promotion `q` — there is no way to choose another piece —
while any other piece, any non-rank-8/1 destination, or an empty source
square is submitted with no promotion field. -/
theorem promotion_always_queen (p : ChessGame.BoardPiece)
    (piece : Option ChessGame.BoardPiece) (toSq : String)
    (hpawn : p.pieceType = 'p')
    (hrank : ChessGame.charAt toSq 1 = '8' ∨ ChessGame.charAt toSq 1 = '1') :
    ChessGame.promotionForMove (some p) toSq = some 'q'
    ∧ (∀ q' : ChessGame.BoardPiece, q'.pieceType ≠ 'p' →
        ChessGame.promotionForMove (some q') toSq = none)
    ∧ (∀ t : String, ChessGame.charAt t 1 ≠ '8' →
        ChessGame.charAt t 1 ≠ '1' →
        ChessGame.promotionForMove piece t = none)
    ∧ ChessGame.promotionForMove none toSq = none := by
  refine ⟨?_, ?_, ?_, rfl⟩
  · rcases hrank with h | h <;>
      simp [ChessGame.promotionForMove, hpawn, h]
  · intro q' hq
    have hb : (q'.pieceType == 'p') = false := by
      simpa using hq
    simp [ChessGame.promotionForMove, hb]
  · intro t h8 h1
    have e8 : (ChessGame.charAt t 1 == '8') = false := by
      simpa using h8
    have e1 : (ChessGame.charAt t 1 == '1') = false := by
      simpa using h1
    cases piece with
    | none => rfl
    | some q' => simp [ChessGame.promotionForMove, e8, e1]

/-- Witness for C10 at a concrete input: a white pawn moving to e8. -/
theorem promotion_always_queen_witness :
    (({ pieceType := 'p', color := 'w' } :
        ChessGame.BoardPiece).pieceType = 'p'
      ∧ (ChessGame.charAt "e8" 1 = '8' ∨ ChessGame.charAt "e8" 1 = '1')) ∧
    (ChessGame.promotionForMove
        (some { pieceType := 'p', color := 'w' }) "e8" = some 'q'
    ∧ (∀ q' : ChessGame.BoardPiece, q'.pieceType ≠ 'p' →
        ChessGame.promotionForMove (some q') "e8" = none)
    ∧ (∀ t : String, ChessGame.charAt t 1 ≠ '8' →
        ChessGame.charAt t 1 ≠ '1' →
        ChessGame.promotionForMove
          (some { pieceType := 'p', color := 'w' }) t = none)
    ∧ ChessGame.promotionForMove none "e8" = none) :=
  ⟨⟨rfl, Or.inl (by decide)⟩,
   promotion_always_queen { pieceType := 'p', color := 'w' }
     (some { pieceType := 'p', color := 'w' }) "e8" rfl
     (Or.inl (by decide))⟩

end RTSduncan
